import Mathlib

set_option maxHeartbeats 1000000

/-!
Shallow embedding of the clipee Windows clipboard crate (src/windows).

Rust strings are modeled as lists of Unicode scalar values (Lean `Char`),
16-bit code units and raw bytes as `Nat`, and machine handles / OS calls as
explicit oracle parameters.  Every fallible operation returns `Out`, which
mirrors Rust `Result` plus an explicit arm for panics (aborts).
-/

/-- Model of the `ClipboardFormat` enum in src/windows/src/format.rs. -/
inductive ClipboardFormat where
  | Text
  | Bitmap
  | BitmapInfo
  | BitmapV5
  | DropHandle
  | UnicodeText
deriving DecidableEq, Repr

/-- Model of `ClipboardFormat::try_from_u32`: maps the OS clipboard format
codes CF_TEXT = 1, CF_BITMAP = 2, CF_DIB = 8, CF_DIBV5 = 17, CF_HDROP = 15,
CF_UNICODETEXT = 13 to the known tags and anything else to `none`. -/
def ClipboardFormat.try_from_u32 (format : Nat) : Option ClipboardFormat :=
  if format = 1 then some .Text
  else if format = 2 then some .Bitmap
  else if format = 8 then some .BitmapInfo
  else if format = 17 then some .BitmapV5
  else if format = 15 then some .DropHandle
  else if format = 13 then some .UnicodeText
  else none

/-- Model of the `Error` enum in src/windows/src/error.rs.  `WindowsError`
payloads become the raw OS status code (a `Nat`); the `Utf8Error` payload of
`InvalidString` is dropped.  The `EnumClipboard` variant is used by
`available_formats` in src/windows/src/lib.rs but its declaration is absent
from the error enum in src; it is modelled from the spec's error taxonomy
(an OS-originated kind carrying the numeric OS status code). -/
inductive Err where
  | ClipboardAlreadyOpen
  | Allocation (code : Nat)
  | Locking (code : Nat)
  | InvalidObject (code : Nat)
  | OpenClipboard (code : Nat)
  | GetClipboard (code : Nat)
  | SetClipboard (code : Nat)
  | EnumClipboard (code : Nat)
  | ImageBits (code : Nat)
  | InvalidImage
  | PathCount (code : Nat)
  | PathLength (idx : Nat) (code : Nat)
  | FilePath (idx : Nat) (code : Nat)
  | InvalidString
  | CreateWindow (code : Nat)
  | ListenWindow (code : Nat)
deriving DecidableEq, Repr

/-- Outcome of a fallible Rust computation: `ok` and `err` mirror
`Result<α, Error>`, and `panicked` marks the aborting paths (the
`panic!` inside `LockedPtr::new`). -/
inductive Out (α : Type) where
  | ok (val : α)
  | err (e : Err)
  | panicked
deriving DecidableEq, Repr

/-- Model of an OS global-memory object as handed to `LockedPtr::new`
(src/windows/src/lock.rs): whether `GlobalLock` fails on it, the byte
contents of the allocation (`GlobalSize` reports `bytes.length`), and the
thread's last-error code used by `WindowsError::from_last_error`. -/
structure RawBlock where
  lockFails : Bool
  bytes : List Nat
  lastError : Nat
deriving DecidableEq, Repr

/-- Model of `LockedPtr::<T>::new` in src/windows/src/lock.rs, with
`tsize = size_of::<T>()`: a failed `GlobalLock` yields `Error::Locking`, a
zero `GlobalSize` yields `Error::InvalidObject`, and an allocation smaller
than `T` hits `panic_if_invalid_size`. -/
def lockedPtr_new (tsize : Nat) (blk : RawBlock) : Out Unit :=
  if blk.lockFails then .err (.Locking blk.lastError)
  else if blk.bytes.length = 0 then .err (.InvalidObject blk.lastError)
  else if tsize > blk.bytes.length then .panicked
  else .ok ()

/-- Lossy decoding of a single 16-bit unit that is not part of a valid
surrogate pair: surrogate code units become U+FFFD, everything else is the
corresponding scalar value. -/
def utf16One (u : Nat) : Char :=
  if 0xD800 ≤ u ∧ u < 0xE000 then Char.ofNat 0xFFFD else Char.ofNat u

/-- Model of the external wtf8 crate's
`Wtf8Buf::from_ill_formed_utf16(units).into_string_lossy()` as used by the
string and file-list decoders: well-formed surrogate pairs are combined
into supplementary scalar values and every unpaired surrogate unit is
replaced by U+FFFD, per the standard lossy-recovery rules. -/
def utf16DecodeLossy : List Nat → List Char
  | [] => []
  | [u] => [utf16One u]
  | u :: u2 :: rest =>
    if 0xD800 ≤ u ∧ u < 0xDC00 then
      if 0xDC00 ≤ u2 ∧ u2 < 0xE000 then
        Char.ofNat (0x10000 + (u - 0xD800) * 0x400 + (u2 - 0xDC00)) :: utf16DecodeLossy rest
      else
        Char.ofNat 0xFFFD :: utf16DecodeLossy (u2 :: rest)
    else
      utf16One u :: utf16DecodeLossy (u2 :: rest)

/-- UTF-16 encoding of one scalar value, as produced by Rust's
`str::encode_utf16`: BMP scalars become one unit, supplementary scalars a
surrogate pair. -/
def encodeUtf16Char (c : Char) : List Nat :=
  if c.toNat < 0x10000 then [c.toNat]
  else [0xD800 + (c.toNat - 0x10000) / 0x400, 0xDC00 + (c.toNat - 0x10000) % 0x400]

/-- Model of `str::encode_utf16` over a whole string. -/
def encodeUtf16 : List Char → List Nat
  | [] => []
  | c :: rest => encodeUtf16Char c ++ encodeUtf16 rest

/-- Little-endian byte layout of a list of 16-bit units, as stored in a
global-memory allocation of `u16`s. -/
def u16ToBytes : List Nat → List Nat
  | [] => []
  | u :: rest => u % 0x100 :: u / 0x100 :: u16ToBytes rest

/-- Reading a byte allocation back as 16-bit units (little-endian); a
trailing odd byte is not a full unit and is dropped. -/
def bytesToU16 : List Nat → List Nat
  | b0 :: b1 :: rest => (b0 + 0x100 * b1) :: bytesToU16 rest
  | _ => []

/-- Bytes strictly before the first zero byte of a list; the whole list if
it contains no zero byte. -/
def takeUntilZero : List Nat → List Nat
  | [] => []
  | b :: rest => if b = 0 then [] else b :: takeUntilZero rest

/-- Bool test for lo ≤ x < hi. -/
def inRange (lo x hi : Nat) : Bool := decide (lo ≤ x) && decide (x < hi)

/-- Admissible second bytes of a three-byte UTF-8 sequence, given the lead
byte (E0 excludes overlong forms, ED excludes surrogates). -/
def utf8Lead3 (b b1 : Nat) : Bool :=
  if b = 0xE0 then inRange 0xA0 b1 0xC0
  else if b = 0xED then inRange 0x80 b1 0xA0
  else inRange 0x80 b1 0xC0

/-- Admissible second bytes of a four-byte UTF-8 sequence, given the lead
byte (F0 excludes overlong forms, F4 caps at U+10FFFF). -/
def utf8Lead4 (b b1 : Nat) : Bool :=
  if b = 0xF0 then inRange 0x90 b1 0xC0
  else if b = 0xF4 then inRange 0x80 b1 0x90
  else inRange 0x80 b1 0xC0

/-- Model of Rust's `str::from_utf8` validation (used via `CStr::to_str`):
decodes a byte list as strict UTF-8, returning `none` exactly on invalid
input (overlong forms, surrogates, out-of-range and truncated sequences
all rejected, per the standard UTF-8 table). -/
def utf8Decode : List Nat → Option (List Char)
  | [] => some []
  | b :: rest =>
    if b < 0x80 then (utf8Decode rest).map (fun s => Char.ofNat b :: s)
    else if b < 0xC2 then none
    else if b < 0xE0 then
      match rest with
      | b1 :: rest1 =>
        if inRange 0x80 b1 0xC0 then
          (utf8Decode rest1).map (fun s => Char.ofNat ((b - 0xC0) * 0x40 + (b1 - 0x80)) :: s)
        else none
      | [] => none
    else if b < 0xF0 then
      match rest with
      | b1 :: b2 :: rest2 =>
        if utf8Lead3 b b1 && inRange 0x80 b2 0xC0 then
          (utf8Decode rest2).map
            (fun s => Char.ofNat ((b - 0xE0) * 0x1000 + (b1 - 0x80) * 0x40 + (b2 - 0x80)) :: s)
        else none
      | _ => none
    else if b < 0xF5 then
      match rest with
      | b1 :: b2 :: b3 :: rest3 =>
        if utf8Lead4 b b1 && inRange 0x80 b2 0xC0 && inRange 0x80 b3 0xC0 then
          (utf8Decode rest3).map
            (fun s =>
              Char.ofNat
                ((b - 0xF0) * 0x40000 + (b1 - 0x80) * 0x1000 + (b2 - 0x80) * 0x40 + (b3 - 0x80))
                :: s)
        else none
      | _ => none
    else none

/-- Model of `format::string::get` in src/windows/src/format/string.rs: lock
the block (as a view of `c_char`, size 1), then `CStr::from_ptr` scans memory
from the block's start until the first zero byte, with no bound from the
allocation size; memory adjacent to (past) the allocation is modeled by the
`beyond` parameter, followed by a final zero so the scan terminates.  The
scanned bytes are then UTF-8 validated by `CStr::to_str`, with failure mapped
to `Error::InvalidString`. -/
def string_get (blk : RawBlock) (beyond : List Nat) : Out (List Char) :=
  match lockedPtr_new 1 blk with
  | .err e => .err e
  | .panicked => .panicked
  | .ok _ =>
    match utf8Decode (takeUntilZero (blk.bytes ++ beyond ++ [0])) with
    | some s => .ok s
    | none => .err .InvalidString

/-- Model of `format::string::get_unicode` in
src/windows/src/format/string.rs: lock the block as a view of `u16`
(size 2), re-query the allocation size (`Error::InvalidObject` if zero),
read `size / 2 - 1` 16-bit units from the start of the block, and decode
them lossily from possibly ill-formed UTF-16. -/
def string_get_unicode (blk : RawBlock) : Out (List Char) :=
  match lockedPtr_new 2 blk with
  | .err e => .err e
  | .panicked => .panicked
  | .ok _ =>
    if blk.bytes.length = 0 then .err (.InvalidObject blk.lastError)
    else .ok (utf16DecodeLossy ((bytesToU16 blk.bytes).take (blk.bytes.length / 2 - 1)))

/-- Oracle for the three `DragQueryFileW` query shapes used by
`DropHandle::get_files` in src/windows/src/format/files.rs: the reported
file count, the per-index required buffer length, the per-index written
length, and the units the OS writes into the provided buffer. -/
structure DropOracle where
  count : Nat
  pathLen : Nat → Nat
  written : Nat → Nat
  fill : Nat → List Nat
  lastError : Nat

/-- A buffer of exactly n units: the writer's units, zero-padded (the code
allocates the buffer with vec![0; n]) and truncated to the buffer size. -/
def padTrunc (n : Nat) (l : List Nat) : List Nat := (l ++ List.replicate n 0).take n

/-- Contents of the `needed_len + 1`-unit buffer after the third
`DragQueryFileW` call for a given index. -/
def drag_query_buffer (o : DropOracle) (idx : Nat) : List Nat :=
  padTrunc (o.pathLen idx + 1) (o.fill idx)

/-- Decoded path at one index: the buffer truncated to the written length,
decoded lossily from UTF-16 (the `PathBuf::from(...into_string_lossy())`
step of `DropHandle::get_files`). -/
def decoded_path (o : DropOracle) (idx : Nat) : List Char :=
  utf16DecodeLossy ((drag_query_buffer o idx).take (o.written idx))

/-- One iteration of the `DropHandle::get_files` loop at a given index:
a zero required length fails with `PathLength{idx}`, a zero written length
fails with `FilePath{idx}`, otherwise the truncated buffer is decoded. -/
def fetch_path (o : DropOracle) (idx : Nat) : Out (List Char) :=
  if o.pathLen idx = 0 then .err (.PathLength idx o.lastError)
  else if o.written idx = 0 then .err (.FilePath idx o.lastError)
  else .ok (decoded_path o idx)

/-- The `for idx in 0..file_count` loop of `DropHandle::get_files`,
generalized to start at any index: stops at the first failing index,
otherwise collects the decoded paths in order. -/
def files_loop (o : DropOracle) : Nat → Nat → Out (List (List Char))
  | _start, 0 => .ok []
  | start, n + 1 =>
    match fetch_path o start with
    | .err e => .err e
    | .panicked => .panicked
    | .ok p =>
      match files_loop o (start + 1) n with
      | .err e => .err e
      | .panicked => .panicked
      | .ok rest => .ok (p :: rest)

/-- Model of `DropHandle::get_files` in src/windows/src/format/files.rs:
query the count (failing with `PathCount` when the OS reports zero), then
run the per-index loop over indices 0 to count - 1. -/
def get_files (o : DropOracle) : Out (List (List Char)) :=
  if o.count = 0 then .err (.PathCount o.lastError)
  else files_loop o 0 o.count

/-- Model of `format::files::get`: lock the handle as `LockedPtr<()>`
(size 0) and hand the drop handle to `DropHandle::get_files`. -/
def files_get (blk : RawBlock) (o : DropOracle) : Out (List (List Char)) :=
  match lockedPtr_new 0 blk with
  | .err e => .err e
  | .panicked => .panicked
  | .ok _ => get_files o

/-- The 16-bit units `ClipboardHandleInner::set_string_impl`
(src/windows/src/lib.rs) writes into its freshly allocated block: the
UTF-16 encoding of the string followed by one zero terminator unit. -/
def set_string_units (s : List Char) : List Nat := encodeUtf16 s ++ [0]

/-- The global-memory block produced by a successful `set_string_impl`
call: a locked allocation of exactly `encode_utf16(s).len() + 1` 16-bit
units holding the encoded string and its terminator. -/
def set_string_block (s : List Char) (lastError : Nat) : RawBlock :=
  { lockFails := false, bytes := u16ToBytes (set_string_units s), lastError := lastError }

/-- A Windows `Path` as seen by `Path::to_str`: either valid Unicode (so
`to_str` yields its string) or not representable as Unicode (so `to_str`
yields `None`). -/
inductive WPath where
  | unicode (s : List Char)
  | nonUnicode
deriving DecidableEq, Repr

/-- Model of `Path::to_str` on a `WPath`. -/
def WPath.to_str : WPath → Option (List Char)
  | .unicode s => some s
  | .nonUnicode => none

/-- The per-path loop of `ClipboardHandleInner::set_files_impl`
(src/windows/src/lib.rs): paths whose `to_str` is `None` are skipped with
`continue`; every other path contributes its UTF-16 encoding followed by
one zero terminator unit. -/
def encodePaths : List WPath → List Nat
  | [] => []
  | p :: rest =>
    match WPath.to_str p with
    | none => encodePaths rest
    | some s => encodeUtf16 s ++ [0] ++ encodePaths rest

/-- The complete 16-bit-unit path table built by `set_files_impl`: the
per-path encodings followed by the single final zero unit pushed after the
loop. -/
def set_files_units (paths : List WPath) : List Nat := encodePaths paths ++ [0]

/-- OS conditions surrounding a `set_files_impl_2` call: whether
`GlobalAlloc` fails, whether the subsequent `GlobalLock` on the fresh
allocation fails, whether `SetClipboardData` rejects the handle, and the
last-error code. -/
structure SetEnv where
  allocFails : Bool
  allocLockFails : Bool
  setFails : Bool
  lastError : Nat
deriving DecidableEq, Repr

/-- Byte size of the `DROPFILES` header: pFiles (4) + pt POINT (8) +
fNC BOOL (4) + fWide BOOL (4). -/
def DROPFILES_size : Nat := 20

/-- The fresh zero-initialized allocation `LockedPtr::<u8>::alloc` returns
in a `SetEnv` where `GlobalAlloc` succeeded. -/
def alloc_block (env : SetEnv) (n : Nat) : RawBlock :=
  { lockFails := env.allocLockFails, bytes := List.replicate n 0, lastError := env.lastError }

/-- Model of `ClipboardHandleInner::set_files_impl_2`: allocate
`size_of::<DROPFILES>() + units.len() * size_of::<u16>()` bytes via
`LockedPtr::<u8>::alloc` (failed `GlobalAlloc` yields `Error::Allocation`,
then `LockedPtr::new` with size 1 runs), write the header and path table,
and hand the handle to `SetClipboardData` (rejection yields
`Error::SetClipboard`). -/
def set_files_impl_2 (env : SetEnv) (units : List Nat) : Out Unit :=
  if env.allocFails then .err (.Allocation env.lastError)
  else
    match lockedPtr_new 1 (alloc_block env (DROPFILES_size + units.length * 2)) with
    | .err e => .err e
    | .panicked => .panicked
    | .ok _ =>
      if env.setFails then .err (.SetClipboard env.lastError) else .ok ()

/-- Model of `ClipboardHandleInner::set_files_impl`: build the
double-terminated path table and pass it to `set_files_impl_2`. -/
def set_files_impl (env : SetEnv) (paths : List WPath) : Out Unit :=
  set_files_impl_2 env (set_files_units paths)

/-- Abstract result type of the bitmap codec (an RGB image with explicit
dimensions). -/
structure RgbImageData where
  width : Nat
  height : Nat
  pixels : List Nat
deriving DecidableEq, Repr

/-- Byte size of the `BITMAPINFO` structure: a 40-byte
`BITMAPINFOHEADER` plus one 4-byte `RGBQUAD`. -/
def BITMAPINFO_size : Nat := 44

/-- OS oracle for the getter operations of `ClipboardHandleInner`
(src/windows/src/lib.rs): the `IsClipboardFormatAvailable` answer per
format, the `GetClipboardData` result per format (error value = OS status
code), the memory adjacent to the Text block (read past the allocation by
`CStr::from_ptr` when the block lacks a terminator), the `DragQueryFileW`
oracle, and the result of the bitmap codec.  The bitmap codec
(src/windows/src/format/bitmap.rs) is supplied by the environment rather
than embedded: no claim depends on its internals, and it runs only after
both availability checks, both data fetches and the `BITMAPINFO` lock
succeed. -/
structure OsEnv where
  avail : ClipboardFormat → Bool
  getData : ClipboardFormat → Except Nat RawBlock
  textBeyond : List Nat
  dropOracle : DropOracle
  bitmapGet : Out RgbImageData

/-- Model of `ClipboardHandleInner::get_clipboard_data` composed into each
getter: a failed `GetClipboardData` yields `Error::GetClipboard`. -/
def get_clipboard_data (env : OsEnv) (format : ClipboardFormat) : Out RawBlock :=
  match env.getData format with
  | .error code => .err (.GetClipboard code)
  | .ok blk => .ok blk

/-- Model of `ClipboardHandleInner::string`: `Ok(None)` when CF_TEXT is
unavailable, otherwise fetch the handle and decode it with
`format::string::get`. -/
def string_op (env : OsEnv) : Out (Option (List Char)) :=
  if !(env.avail .Text) then .ok none
  else
    match get_clipboard_data env .Text with
    | .err e => .err e
    | .panicked => .panicked
    | .ok blk =>
      match string_get blk env.textBeyond with
      | .ok s => .ok (some s)
      | .err e => .err e
      | .panicked => .panicked

/-- Model of `ClipboardHandleInner::string_unicode`: `Ok(None)` when
CF_UNICODETEXT is unavailable, otherwise fetch the handle and decode it
with `format::string::get_unicode`. -/
def string_unicode_op (env : OsEnv) : Out (Option (List Char)) :=
  if !(env.avail .UnicodeText) then .ok none
  else
    match get_clipboard_data env .UnicodeText with
    | .err e => .err e
    | .panicked => .panicked
    | .ok blk =>
      match string_get_unicode blk with
      | .ok s => .ok (some s)
      | .err e => .err e
      | .panicked => .panicked

/-- Model of `ClipboardHandleInner::files`: `Ok(None)` when CF_HDROP is
unavailable, otherwise fetch the handle and decode it with
`format::files::get`. -/
def files_op (env : OsEnv) : Out (Option (List (List Char))) :=
  if !(env.avail .DropHandle) then .ok none
  else
    match get_clipboard_data env .DropHandle with
    | .err e => .err e
    | .panicked => .panicked
    | .ok blk =>
      match files_get blk env.dropOracle with
      | .ok l => .ok (some l)
      | .err e => .err e
      | .panicked => .panicked

/-- Model of `ClipboardHandleInner::image`: `Ok(None)` when either
CF_BITMAP or CF_DIB is unavailable, otherwise fetch both handles, lock the
`BITMAPINFO` block (size 44), and run the bitmap codec. -/
def image_op (env : OsEnv) : Out (Option RgbImageData) :=
  if !(env.avail .Bitmap) || !(env.avail .BitmapInfo) then .ok none
  else
    match get_clipboard_data env .Bitmap with
    | .err e => .err e
    | .panicked => .panicked
    | .ok _hbitmap =>
      match get_clipboard_data env .BitmapInfo with
      | .err e => .err e
      | .panicked => .panicked
      | .ok infoBlk =>
        match lockedPtr_new BITMAPINFO_size infoBlk with
        | .err e => .err e
        | .panicked => .panicked
        | .ok _ =>
          match env.bitmapGet with
          | .ok img => .ok (some img)
          | .err e => .err e
          | .panicked => .panicked

/-- Model of `WindowsError::try_from_last_error`
(src/windows/src/error/windows.rs): `Some` exactly when the last-error
code is nonzero. -/
def try_from_last_error (code : Nat) : Option Nat :=
  if code ≠ 0 then some code else none

/-- Model of `ClipboardHandleInner::available_formats`: the OS responses to
the successive `EnumClipboardFormats` calls are the elements of `codes`
followed by 0; `lastError` is the thread's last-error code when a 0
response is seen.  A 0 response with a nonzero last-error code yields
`Error::EnumClipboard`; otherwise enumeration ends normally.  Codes with
no known `ClipboardFormat` tag are skipped. -/
def available_formats (codes : List Nat) (lastError : Nat) : Except Err (List ClipboardFormat) :=
  match codes with
  | [] =>
    match try_from_last_error lastError with
    | some c => .error (.EnumClipboard c)
    | none => .ok []
  | c :: rest =>
    if c = 0 then
      match try_from_last_error lastError with
      | some e => .error (.EnumClipboard e)
      | none => .ok []
    else
      match available_formats rest lastError with
      | .error e => .error e
      | .ok tail =>
        .ok
          (match ClipboardFormat.try_from_u32 c with
           | some f => f :: tail
           | none => tail)

/-- An open clipboard session (`ClipboardHandleInner`), identified by its
hidden window handle. -/
structure Session where
  window : Nat
deriving DecidableEq, Repr

/-- The errors `ClipboardHandleInner::new` can produce: window creation
failure or `OpenClipboard` denial. -/
inductive InnerNewErr where
  | createWindow (code : Nat)
  | openClipboard (code : Nat)
deriving DecidableEq, Repr

/-- Mapping of `ClipboardHandleInner::new` failures into the `Error`
enum. -/
def InnerNewErr.toErr : InnerNewErr → Err
  | .createWindow c => .CreateWindow c
  | .openClipboard c => .OpenClipboard c

/-- State of the process-wide `CLIPBOARD_HANDLE` once-cell holding a weak
reference: never initialized, initialized but with no live strong
reference, or initialized with a live session the weak reference upgrades
to. -/
inductive HandleState where
  | uninit
  | cellSet (live : Option Session)
deriving DecidableEq, Repr

/-- Model of `ClipboardHandle::new` (src/windows/src/lib.rs).  `osOpen` is
the outcome `ClipboardHandleInner::new` would have (creating the hidden
window and calling `OpenClipboard`).  The result is the returned handle's
session (or error), the new once-cell state, and whether an OS-level open
(`ClipboardHandleInner::new`) was performed. -/
def clipboardHandle_new (st : HandleState) (osOpen : Except InnerNewErr Session) :
    Except Err Session × HandleState × Bool :=
  match st with
  | .cellSet (some s) => (.ok s, .cellSet (some s), false)
  | .cellSet none =>
    match osOpen with
    | .ok s => (.ok s, .cellSet (some s), true)
    | .error e => (.error e.toErr, .cellSet none, true)
  | .uninit =>
    match osOpen with
    | .ok s => (.ok s, .cellSet (some s), true)
    | .error e => (.error e.toErr, .uninit, true)

/-! Helper lemmas about the UTF-16 codec. -/

/-- Validity bounds of a scalar value, in `Nat` form. -/
theorem char_toNat_valid (c : Char) :
    c.toNat < 0xD800 ∨ (0xDFFF < c.toNat ∧ c.toNat < 0x110000) := c.valid

/-- Lossy decoding of a single unit that is a scalar value gives back that
scalar. -/
theorem utf16One_toNat (c : Char) : utf16One c.toNat = c := by
  have hv := char_toNat_valid c
  rw [utf16One, if_neg (by omega)]
  exact Char.ofNat_toNat c

/-- Decoding peels one encoded character off the front of the unit
stream. -/
theorem utf16DecodeLossy_encodeChar (c : Char) (t : List Nat) :
    utf16DecodeLossy (encodeUtf16Char c ++ t) = c :: utf16DecodeLossy t := by
  have hv := char_toNat_valid c
  by_cases hc : c.toNat < 0x10000
  · rw [encodeUtf16Char, if_pos hc]
    cases t with
    | nil =>
      simp only [List.cons_append, List.nil_append, utf16DecodeLossy]
      rw [utf16One_toNat]
    | cons u2 rest =>
      simp only [List.cons_append, List.nil_append, utf16DecodeLossy]
      rw [if_neg (by omega), utf16One_toNat]
  · rw [encodeUtf16Char, if_neg hc]
    have hlt : c.toNat - 0x10000 < 0x100000 := by omega
    simp only [List.cons_append, List.nil_append, utf16DecodeLossy]
    rw [if_pos (by omega), if_pos (by omega)]
    have harg :
        0x10000 + (0xD800 + (c.toNat - 0x10000) / 0x400 - 0xD800) * 0x400 +
            (0xDC00 + (c.toNat - 0x10000) % 0x400 - 0xDC00) = c.toNat := by
      omega
    rw [harg, Char.ofNat_toNat]
    simp

/-- Round trip of the UTF-16 codec on scalar-value sequences. -/
theorem utf16DecodeLossy_encodeUtf16 (s : List Char) :
    utf16DecodeLossy (encodeUtf16 s) = s := by
  induction s with
  | nil => rfl
  | cons c rest ih => rw [encodeUtf16, utf16DecodeLossy_encodeChar, ih]

/-- Reading the little-endian byte layout back as 16-bit units gives the
original units. -/
theorem bytesToU16_u16ToBytes (us : List Nat) : bytesToU16 (u16ToBytes us) = us := by
  induction us with
  | nil => rfl
  | cons u rest ih =>
    rw [u16ToBytes, bytesToU16, ih]
    congr 1
    omega

/-- Byte length of the layout of a unit list. -/
theorem u16ToBytes_length (us : List Nat) : (u16ToBytes us).length = 2 * us.length := by
  induction us with
  | nil => rfl
  | cons u rest ih => simp [u16ToBytes, ih]; omega

/-! Claim theorems. -/

/-- C9: for every type size and block, `LockedPtr::new` panics (rather than
returning a recoverable error or truncating) exactly when the lock
succeeded and the OS-reported allocation size is positive but smaller than
the size of `T`; the recoverable branches are reserved for lock failure
(`Locking`) and a zero reported size (`InvalidObject`), and a large enough
allocation yields the typed view. -/
theorem lockedPtr_new_branches (tsize : Nat) (blk : RawBlock) :
    (blk.lockFails = true → lockedPtr_new tsize blk = .err (.Locking blk.lastError))
    ∧ (blk.lockFails = false → blk.bytes.length = 0 →
        lockedPtr_new tsize blk = .err (.InvalidObject blk.lastError))
    ∧ (blk.lockFails = false → 0 < blk.bytes.length → blk.bytes.length < tsize →
        lockedPtr_new tsize blk = .panicked)
    ∧ (blk.lockFails = false → 0 < blk.bytes.length → tsize ≤ blk.bytes.length →
        lockedPtr_new tsize blk = .ok ()) := by
  refine ⟨?_, ?_, ?_, ?_⟩
  · intro h
    rw [lockedPtr_new, if_pos h]
  · intro h h0
    rw [lockedPtr_new, if_neg (by simp [h]), if_pos h0]
  · intro h h0 hsmall
    rw [lockedPtr_new, if_neg (by simp [h]), if_neg (by omega), if_pos (by omega)]
  · intro h h0 hfit
    rw [lockedPtr_new, if_neg (by simp [h]), if_neg (by omega), if_neg (by omega)]

/-- Witness for C9: a one-byte allocation viewed as a four-byte type
panics. -/
theorem lockedPtr_new_branches_witness :
    lockedPtr_new 4 ⟨false, [7], 9⟩ = .panicked :=
  (lockedPtr_new_branches 4 ⟨false, [7], 9⟩).2.2.1 rfl (by decide) (by decide)

/-- C3: while a handle is live, `ClipboardHandle::new` upgrades the
process-wide weak reference: it returns the same session, performs no
OS-level open, and leaves the state unchanged; an OS open is skipped
exactly when a handle is live; and no outcome of the constructor is the
`ClipboardAlreadyOpen` error. -/
theorem clipboardHandle_new_policyA (st : HandleState) (osOpen : Except InnerNewErr Session) :
    (∀ s, st = .cellSet (some s) →
        clipboardHandle_new st osOpen = (.ok s, .cellSet (some s), false))
    ∧ ((clipboardHandle_new st osOpen).2.2 = false ↔ ∃ s, st = .cellSet (some s))
    ∧ (∀ e, (clipboardHandle_new st osOpen).1 = .error e → e ≠ .ClipboardAlreadyOpen) := by
  refine ⟨?_, ?_, ?_⟩
  · rintro s rfl
    rfl
  · cases st with
    | uninit => cases osOpen <;> simp [clipboardHandle_new]
    | cellSet l =>
      cases l with
      | none => cases osOpen <;> simp [clipboardHandle_new]
      | some s => simp [clipboardHandle_new]
  · intro e he
    cases st with
    | uninit =>
      cases osOpen with
      | ok s => simp [clipboardHandle_new] at he
      | error e' =>
        simp [clipboardHandle_new] at he
        cases e' <;> simp [InnerNewErr.toErr] at he <;> simp [← he]
    | cellSet l =>
      cases l with
      | none =>
        cases osOpen with
        | ok s => simp [clipboardHandle_new] at he
        | error e' =>
          simp [clipboardHandle_new] at he
          cases e' <;> simp [InnerNewErr.toErr] at he <;> simp [← he]
      | some s => simp [clipboardHandle_new] at he

/-- Witness for C3: with a live session (window 7), a second construction
returns that very session without attempting the OS open that would have
failed. -/
theorem clipboardHandle_new_policyA_witness :
    clipboardHandle_new (.cellSet (some ⟨7⟩)) (.error (.openClipboard 5)) =
      (.ok ⟨7⟩, .cellSet (some ⟨7⟩), false) :=
  (clipboardHandle_new_policyA (.cellSet (some ⟨7⟩)) (.error (.openClipboard 5))).1 ⟨7⟩ rfl

/-- C5: on every block whose `u16` typed view construction succeeds, the
UnicodeText decoder never fails: it reads exactly `byte-size / 2 - 1`
16-bit units from the start of the block and returns their lossy UTF-16
decoding. -/
theorem get_unicode_reads_all_units (blk : RawBlock) (h : lockedPtr_new 2 blk = .ok ()) :
    string_get_unicode blk =
      .ok (utf16DecodeLossy ((bytesToU16 blk.bytes).take (blk.bytes.length / 2 - 1))) := by
  have hlen : ¬ blk.bytes.length = 0 := by
    intro h0
    cases hb : blk.lockFails <;> rw [lockedPtr_new, hb] at h <;> simp [h0] at h
  rw [string_get_unicode, h, if_neg hlen]

/-- Witness for C5: a block holding an unpaired high surrogate followed by
an ASCII unit decodes without error, the surrogate replaced by U+FFFD. -/
theorem get_unicode_reads_all_units_witness :
    string_get_unicode ⟨false, u16ToBytes [0xD800, 65, 0], 0⟩ =
      .ok [Char.ofNat 0xFFFD, Char.ofNat 65] :=
  (get_unicode_reads_all_units ⟨false, u16ToBytes [0xD800, 65, 0], 0⟩ (by decide)).trans
    (by decide)

/-- The block written by `set_string_impl` decodes back to the original
string through `format::string::get_unicode`. -/
theorem string_get_unicode_set_string_block (s : List Char) (code : Nat) :
    string_get_unicode (set_string_block s code) = .ok s := by
  have hlen : (u16ToBytes (set_string_units s)).length = 2 * (encodeUtf16 s).length + 2 := by
    rw [u16ToBytes_length, set_string_units]
    simp
    omega
  have hlock : lockedPtr_new 2 (set_string_block s code) = .ok () := by
    rw [lockedPtr_new]
    simp only [set_string_block]
    rw [if_neg (by simp), if_neg (by omega), if_neg (by omega)]
  rw [string_get_unicode, hlock]
  simp only [set_string_block]
  rw [if_neg (by omega)]
  have hunits : bytesToU16 (u16ToBytes (set_string_units s)) = set_string_units s :=
    bytesToU16_u16ToBytes _
  have hcount : (u16ToBytes (set_string_units s)).length / 2 - 1 = (encodeUtf16 s).length := by
    omega
  rw [hunits, hcount, set_string_units, List.take_left' rfl, utf16DecodeLossy_encodeUtf16]

/-- C1: for every string (every list of Unicode scalar values), encoding it
onto the clipboard with `set_string` and then reading back through
`string_unicode` over the stored payload yields `Ok(Some(s))`, the original
string exactly. -/
theorem set_string_string_unicode_roundtrip (s : List Char) (env : OsEnv)
    (hAvail : env.avail .UnicodeText = true)
    (hData : env.getData .UnicodeText = .ok (set_string_block s 0)) :
    string_unicode_op env = .ok (some s) := by
  rw [string_unicode_op, hAvail]
  simp only [Bool.not_true, Bool.false_eq_true, if_false]
  simp only [get_clipboard_data, hData]
  rw [string_get_unicode_set_string_block]

/-- Oracle environment for the C1 witness: the clipboard stores the
encoding of a three-scalar string with one-, two- and four-byte UTF-8
forms (the last needs a surrogate pair in UTF-16). -/
def c1env_multibyte : OsEnv :=
  { avail := fun _ => true,
    getData := fun _ => .ok (set_string_block [Char.ofNat 97, Char.ofNat 0xE9, Char.ofNat 0x1F600] 0),
    textBeyond := [],
    dropOracle := ⟨0, fun _ => 0, fun _ => 0, fun _ => [], 0⟩,
    bitmapGet := .panicked }

/-- Oracle environment for the C1 witness, empty-string case. -/
def c1env_empty : OsEnv :=
  { avail := fun _ => true,
    getData := fun _ => .ok (set_string_block [] 0),
    textBeyond := [],
    dropOracle := ⟨0, fun _ => 0, fun _ => 0, fun _ => [], 0⟩,
    bitmapGet := .panicked }

/-- Witness for C1: the round trip at a concrete multi-byte string and at
the empty string. -/
theorem set_string_string_unicode_roundtrip_witness :
    string_unicode_op c1env_multibyte =
        .ok (some [Char.ofNat 97, Char.ofNat 0xE9, Char.ofNat 0x1F600])
    ∧ string_unicode_op c1env_empty = .ok (some []) :=
  ⟨set_string_string_unicode_roundtrip [Char.ofNat 97, Char.ofNat 0xE9, Char.ofNat 0x1F600]
      c1env_multibyte rfl rfl,
    set_string_string_unicode_roundtrip [] c1env_empty rfl rfl⟩

/-- C7: whenever the OS availability check for a format answers false, the
matching getter returns `Ok(None)` — never an error. -/
theorem unavailable_format_gives_none (env : OsEnv) :
    (env.avail .Text = false → string_op env = .ok none)
    ∧ (env.avail .UnicodeText = false → string_unicode_op env = .ok none)
    ∧ (env.avail .DropHandle = false → files_op env = .ok none)
    ∧ (env.avail .Bitmap = false ∨ env.avail .BitmapInfo = false →
        image_op env = .ok none) := by
  refine ⟨?_, ?_, ?_, ?_⟩
  · intro h
    rw [string_op, h]
    simp
  · intro h
    rw [string_unicode_op, h]
    simp
  · intro h
    rw [files_op, h]
    simp
  · intro h
    rcases h with h | h <;> rw [image_op, h] <;> simp

/-- Oracle environment for the C7 witness: no format available, every
other OS interaction failing, so any error path would be visible. -/
def c7env : OsEnv :=
  { avail := fun _ => false,
    getData := fun _ => .error 5,
    textBeyond := [],
    dropOracle := ⟨0, fun _ => 0, fun _ => 0, fun _ => [], 5⟩,
    bitmapGet := .err .InvalidImage }

/-- Witness for C7: all four getters give `Ok(None)` in that
environment. -/
theorem unavailable_format_gives_none_witness :
    string_op c7env = .ok none
    ∧ string_unicode_op c7env = .ok none
    ∧ files_op c7env = .ok none
    ∧ image_op c7env = .ok none :=
  ⟨(unavailable_format_gives_none c7env).1 rfl,
    (unavailable_format_gives_none c7env).2.1 rfl,
    (unavailable_format_gives_none c7env).2.2.1 rfl,
    (unavailable_format_gives_none c7env).2.2.2 (Or.inl rfl)⟩

/-- C8: enumeration consumes the OS responses up to the first zero; a zero
response is an error (`EnumClipboard` carrying the last-error code)
exactly when a last-error code was set, and normal exhaustion otherwise;
on success the result keeps, in order, exactly the codes that map to known
`ClipboardFormat` tags — unknown codes are silently skipped, never
errors. -/
theorem available_formats_spec (codes : List Nat) (lastError : Nat) :
    available_formats codes lastError =
      if lastError = 0 then
        .ok ((codes.takeWhile (fun c => c != 0)).filterMap ClipboardFormat.try_from_u32)
      else .error (.EnumClipboard lastError) := by
  induction codes with
  | nil => by_cases h : lastError = 0 <;> simp [available_formats, try_from_last_error, h]
  | cons c rest ih =>
    by_cases hc : c = 0
    · subst hc
      by_cases h : lastError = 0 <;>
        simp [available_formats, try_from_last_error, h, List.takeWhile_cons]
    · by_cases h : lastError = 0
      · rw [available_formats, if_neg hc, ih, if_pos h]
        simp only [List.takeWhile_cons, bne_iff_ne, ne_eq, hc, not_false_eq_true, if_true,
          List.filterMap_cons]
        cases hf : ClipboardFormat.try_from_u32 c <;> simp [hf, h]
      · rw [available_formats, if_neg hc, ih, if_neg h, if_neg h]

/-- Decoded paths for n successive OS indices starting at a given
index. -/
def paths_from (o : DropOracle) : Nat → Nat → List (List Char)
  | _start, 0 => []
  | start, n + 1 => decoded_path o start :: paths_from o (start + 1) n

/-- The successive decoded paths are the per-index decodings in
OS-reported index order. -/
theorem paths_from_eq_map (o : DropOracle) (n : Nat) :
    ∀ start, paths_from o start n = (List.range n).map (fun i => decoded_path o (start + i)) := by
  induction n with
  | zero => intro start; rfl
  | succ m ih =>
    intro start
    rw [paths_from, ih (start + 1), List.range_succ_eq_map]
    simp only [List.map_cons, Nat.add_zero, List.map_map]
    have hfun : (fun i => decoded_path o (start + 1 + i)) =
        ((fun i => decoded_path o (start + i)) ∘ Nat.succ) := by
      funext i
      simp only [Function.comp_apply]
      congr 1
      omega
    rw [hfun]

/-- When every queried index responds with nonzero lengths, the loop
collects all decoded paths. -/
theorem files_loop_ok (o : DropOracle) (n : Nat) :
    ∀ start, (∀ i, i < n → o.pathLen (start + i) ≠ 0 ∧ o.written (start + i) ≠ 0) →
      files_loop o start n = .ok (paths_from o start n) := by
  induction n with
  | zero => intro start _; rfl
  | succ m ih =>
    intro start h
    have h0 := h 0 (by omega)
    rw [Nat.add_zero] at h0
    have hfetch : fetch_path o start = .ok (decoded_path o start) := by
      rw [fetch_path, if_neg h0.1, if_neg h0.2]
    have hrec : files_loop o (start + 1) m = .ok (paths_from o (start + 1) m) :=
      ih (start + 1) (fun i hi => by
        have hh := h (i + 1) (by omega)
        rwa [show start + (i + 1) = start + 1 + i by omega] at hh)
    simp only [files_loop, hfetch, hrec, paths_from]

/-- A zero reported path length at the first failing index aborts the loop
with `PathLength` carrying that index. -/
theorem files_loop_err_pathLen (o : DropOracle) :
    ∀ (j n start : Nat), j < n →
      (∀ i, i < j → o.pathLen (start + i) ≠ 0 ∧ o.written (start + i) ≠ 0) →
      o.pathLen (start + j) = 0 →
      files_loop o start n = .err (.PathLength (start + j) o.lastError) := by
  intro j
  induction j with
  | zero =>
    intro n start hn hok hz
    rw [Nat.add_zero] at hz
    cases n with
    | zero => omega
    | succ m =>
      have hfetch : fetch_path o start = .err (.PathLength start o.lastError) := by
        rw [fetch_path, if_pos hz]
      simp only [files_loop, hfetch, Nat.add_zero]
  | succ k ih =>
    intro n start hn hok hz
    cases n with
    | zero => omega
    | succ m =>
      have h0 := hok 0 (by omega)
      rw [Nat.add_zero] at h0
      have hfetch : fetch_path o start = .ok (decoded_path o start) := by
        rw [fetch_path, if_neg h0.1, if_neg h0.2]
      have hrec : files_loop o (start + 1) m = .err (.PathLength (start + 1 + k) o.lastError) :=
        ih m (start + 1) (by omega)
          (fun i hi => by
            have hh := hok (i + 1) (by omega)
            rwa [show start + (i + 1) = start + 1 + i by omega] at hh)
          (by rwa [show start + 1 + k = start + (k + 1) by omega])
      simp only [files_loop, hfetch, hrec]
      rw [show start + 1 + k = start + (k + 1) by omega]

/-- A zero written length at the first failing index aborts the loop with
`FilePath` carrying that index. -/
theorem files_loop_err_filePath (o : DropOracle) :
    ∀ (j n start : Nat), j < n →
      (∀ i, i < j → o.pathLen (start + i) ≠ 0 ∧ o.written (start + i) ≠ 0) →
      o.pathLen (start + j) ≠ 0 → o.written (start + j) = 0 →
      files_loop o start n = .err (.FilePath (start + j) o.lastError) := by
  intro j
  induction j with
  | zero =>
    intro n start hn hok hz hw
    rw [Nat.add_zero] at hz hw
    cases n with
    | zero => omega
    | succ m =>
      have hfetch : fetch_path o start = .err (.FilePath start o.lastError) := by
        rw [fetch_path, if_neg hz, if_pos hw]
      simp only [files_loop, hfetch, Nat.add_zero]
  | succ k ih =>
    intro n start hn hok hz hw
    cases n with
    | zero => omega
    | succ m =>
      have h0 := hok 0 (by omega)
      rw [Nat.add_zero] at h0
      have hfetch : fetch_path o start = .ok (decoded_path o start) := by
        rw [fetch_path, if_neg h0.1, if_neg h0.2]
      have hrec : files_loop o (start + 1) m = .err (.FilePath (start + 1 + k) o.lastError) :=
        ih m (start + 1) (by omega)
          (fun i hi => by
            have hh := hok (i + 1) (by omega)
            rwa [show start + (i + 1) = start + 1 + i by omega] at hh)
          (by rwa [show start + 1 + k = start + (k + 1) by omega])
          (by rwa [show start + 1 + k = start + (k + 1) by omega])
      simp only [files_loop, hfetch, hrec]
      rw [show start + 1 + k = start + (k + 1) by omega]

/-- C6: the file-list decoder queries the count and fails with `PathCount`
when the OS reports zero; on an all-successful run it returns, in
OS-reported order, the lossy UTF-16 decoding of each index's buffer
truncated to its written length; a zero reported buffer length at the
first failing index yields `PathLength` with that index, and a zero
written length yields `FilePath` with that index. -/
theorem get_files_follows_os (o : DropOracle) :
    (o.count = 0 → get_files o = .err (.PathCount o.lastError))
    ∧ (o.count ≠ 0 → (∀ i, i < o.count → o.pathLen i ≠ 0 ∧ o.written i ≠ 0) →
        get_files o = .ok ((List.range o.count).map (decoded_path o)))
    ∧ (∀ j, j < o.count → (∀ i, i < j → o.pathLen i ≠ 0 ∧ o.written i ≠ 0) →
        o.pathLen j = 0 → get_files o = .err (.PathLength j o.lastError))
    ∧ (∀ j, j < o.count → (∀ i, i < j → o.pathLen i ≠ 0 ∧ o.written i ≠ 0) →
        o.pathLen j ≠ 0 → o.written j = 0 →
        get_files o = .err (.FilePath j o.lastError)) := by
  refine ⟨?_, ?_, ?_, ?_⟩
  · intro h
    rw [get_files, if_pos h]
  · intro h hok
    rw [get_files, if_neg h,
      files_loop_ok o o.count 0 (fun i hi => by simpa using hok i hi),
      paths_from_eq_map]
    simp
  · intro j hj hok hz
    rw [get_files, if_neg (by omega)]
    have hh := files_loop_err_pathLen o j o.count 0 hj
      (fun i hi => by simpa using hok i hi) (by simpa using hz)
    simpa using hh
  · intro j hj hok hz hw
    rw [get_files, if_neg (by omega)]
    have hh := files_loop_err_filePath o j o.count 0 hj
      (fun i hi => by simpa using hok i hi) (by simpa using hz) (by simpa using hw)
    simpa using hh

/-- Witness for C6: a two-file drop handle decodes to its two paths in
order. -/
theorem get_files_follows_os_witness :
    get_files ⟨2, fun _ => 1, fun _ => 1, fun i => [65 + i, 0], 0⟩ =
      .ok [[Char.ofNat 65], [Char.ofNat 66]] :=
  ((get_files_follows_os ⟨2, fun _ => 1, fun _ => 1, fun i => [65 + i, 0], 0⟩).2.1
      (by decide) (by decide)).trans (by decide)

/-- When the scanned list contains a zero byte, appending further memory
does not change the scan. -/
theorem takeUntilZero_append (l t : List Nat) (h : 0 ∈ l) :
    takeUntilZero (l ++ t) = takeUntilZero l := by
  induction l with
  | nil => simp at h
  | cons b rest ih =>
    by_cases hb : b = 0
    · subst hb
      simp [takeUntilZero]
    · have hmem : 0 ∈ rest := by
        rcases List.mem_cons.mp h with h1 | h1
        · exact absurd h1.symm hb
        · exact h1
      simp [takeUntilZero, hb, ih hmem]

/-- C4 counterexample: a locked one-byte block holding no zero byte.  The
decoder returns a two-character string whose second character comes from
memory past the allocation size, and its result changes when only the
memory beyond the allocation changes — so the read is not bounded by the
allocation size. -/
theorem string_get_reads_past_allocation :
    string_get ⟨false, [65], 0⟩ [66, 0] = .ok [Char.ofNat 65, Char.ofNat 66]
    ∧ string_get ⟨false, [65], 0⟩ [66, 0] ≠ string_get ⟨false, [65], 0⟩ [] :=
  ⟨by decide, by decide⟩

/-- C4 (amended): when the locked block does contain a zero byte, the Text
decoder reads nothing past the first zero byte — its result is determined
by the block bytes before that terminator, whatever lies after it or
beyond the allocation — and it fails with `InvalidString` exactly when
those bytes are not valid UTF-8.  (When the block contains no zero byte
the read continues past the allocation; see the counterexample.) -/
theorem string_get_bounded_by_terminator (blk : RawBlock) (beyond : List Nat)
    (hLock : blk.lockFails = false) (hz : 0 ∈ blk.bytes) :
    string_get blk beyond =
        (match utf8Decode (takeUntilZero blk.bytes) with
         | some s => Out.ok s
         | none => Out.err Err.InvalidString)
      ∧ (string_get blk beyond = .err .InvalidString ↔
          utf8Decode (takeUntilZero blk.bytes) = none) := by
  have hne : blk.bytes.length ≠ 0 := by
    intro h0
    rw [List.length_eq_zero] at h0
    rw [h0] at hz
    simp at hz
  have hlock : lockedPtr_new 1 blk = .ok () := by
    rw [lockedPtr_new, if_neg (by simp [hLock]), if_neg hne, if_neg (by omega)]
  have hscan : takeUntilZero (blk.bytes ++ beyond ++ [0]) = takeUntilZero blk.bytes := by
    rw [List.append_assoc, takeUntilZero_append _ _ hz]
  constructor
  · rw [string_get, hlock, hscan]
  · rw [string_get, hlock, hscan]
    cases hu : utf8Decode (takeUntilZero blk.bytes) <;> simp [hu]

/-- Witness for the amended C4: a terminated block holding an invalid
UTF-8 sequence fails with `InvalidString`, independent of the junk after
the terminator and beyond the allocation. -/
theorem string_get_bounded_by_terminator_witness :
    string_get ⟨false, [0xC3, 0x28, 0, 9], 0⟩ [7] = .err .InvalidString :=
  ((string_get_bounded_by_terminator ⟨false, [0xC3, 0x28, 0, 9], 0⟩ [7] rfl
      (by decide)).1).trans (by decide)

/-- The per-path loop output is empty or ends with a zero unit. -/
theorem encodePaths_ends_zero (paths : List WPath) :
    encodePaths paths = [] ∨ ∃ l, encodePaths paths = l ++ [0] := by
  induction paths with
  | nil => exact Or.inl rfl
  | cons p rest ih =>
    cases hp : WPath.to_str p with
    | none =>
      rw [encodePaths, hp]
      exact ih
    | some s =>
      right
      rcases ih with h | ⟨l, h⟩
      · exact ⟨encodeUtf16 s, by rw [encodePaths, hp, h]; simp⟩
      · exact ⟨encodeUtf16 s ++ [0] ++ l, by rw [encodePaths, hp, h]; simp⟩

/-- A Unicode-representable path in the input forces a nonempty per-path
loop output. -/
theorem encodePaths_ne_nil (paths : List WPath) (p : WPath) (hp : p ∈ paths)
    (hs : (WPath.to_str p).isSome = true) : encodePaths paths ≠ [] := by
  induction paths with
  | nil => cases hp
  | cons q rest ih =>
    rcases List.mem_cons.mp hp with h | h
    · subst h
      cases hq : WPath.to_str p with
      | none => rw [hq] at hs; simp at hs
      | some s =>
        rw [encodePaths, hq]
        simp
    · cases hq : WPath.to_str q with
      | none =>
        rw [encodePaths, hq]
        exact ih h
      | some s =>
        rw [encodePaths, hq]
        simp

/-- C2 (behavior at the failing input): with the empty path list the
encoder's 16-bit payload after the header is a single zero unit, so it
does not end with two consecutive zero units; the double-zero ending does
hold whenever at least one input path is Unicode-representable. -/
theorem set_files_empty_single_zero :
    set_files_units [] = [0]
    ∧ (¬ ∃ l, set_files_units [] = l ++ [0, 0])
    ∧ (∀ paths, (∃ p, p ∈ paths ∧ (WPath.to_str p).isSome = true) →
        ∃ l, set_files_units paths = l ++ [0, 0]) := by
  refine ⟨rfl, ?_, ?_⟩
  · rintro ⟨l, hl⟩
    have hlen := congrArg List.length hl
    simp [set_files_units, encodePaths] at hlen
  · rintro paths ⟨p, hp, hs⟩
    rcases encodePaths_ends_zero paths with h | ⟨l, h⟩
    · exact absurd h (encodePaths_ne_nil paths p hp hs)
    · exact ⟨l, by rw [set_files_units, h, List.append_assoc]; rfl⟩

/-- Witness for C2: a singleton Unicode path does produce the double-zero
ending. -/
theorem set_files_empty_single_zero_witness :
    ∃ l, set_files_units [WPath.unicode [Char.ofNat 97]] = l ++ [0, 0] :=
  set_files_empty_single_zero.2.2 [WPath.unicode [Char.ofNat 97]]
    ⟨WPath.unicode [Char.ofNat 97], by simp, rfl⟩

/-- Skipping non-Unicode paths is invisible in the payload: it equals the
payload of the filtered list. -/
theorem encodePaths_filter (paths : List WPath) :
    encodePaths paths = encodePaths (paths.filter (fun p => (WPath.to_str p).isSome)) := by
  induction paths with
  | nil => rfl
  | cons p rest ih =>
    cases hp : WPath.to_str p with
    | none =>
      rw [encodePaths, hp, List.filter_cons]
      simp only [hp, Option.isSome_none, Bool.false_eq_true, if_false]
      exact ih
    | some s =>
      rw [encodePaths, hp, List.filter_cons]
      simp only [hp, Option.isSome_some, if_true]
      rw [encodePaths, hp, ih]

/-- C10: `set_files` silently skips every input path that is not
representable as Unicode: the encoded payload equals that of the filtered
input, the call nevertheless succeeds (no error is reported for the
skipped paths), and a concrete two-path list with one non-Unicode path
produces exactly the one-path payload — fewer paths than the input
list. -/
theorem set_files_skips_non_unicode (env : SetEnv)
    (hA : env.allocFails = false) (hL : env.allocLockFails = false)
    (hS : env.setFails = false) :
    (∀ paths, set_files_units paths =
        set_files_units (paths.filter (fun p => (WPath.to_str p).isSome)))
    ∧ (∀ paths, set_files_impl env paths = .ok ())
    ∧ set_files_units [WPath.nonUnicode, WPath.unicode [Char.ofNat 97]] =
        set_files_units [WPath.unicode [Char.ofNat 97]] := by
  refine ⟨?_, ?_, rfl⟩
  · intro paths
    rw [set_files_units, set_files_units, encodePaths_filter]
  · intro paths
    have hlock :
        lockedPtr_new 1
          (alloc_block env (DROPFILES_size + (set_files_units paths).length * 2)) = .ok () := by
      rw [lockedPtr_new]
      simp only [alloc_block, hL, List.length_replicate, DROPFILES_size]
      rw [if_neg (by simp), if_neg (by omega), if_neg (by omega)]
    rw [set_files_impl, set_files_impl_2, if_neg (by simp [hA])]
    simp only [hlock]
    rw [if_neg (by simp [hS])]

/-- Witness for C10: the concrete environment with a cooperative OS and a
single non-Unicode path: the call succeeds with nothing encoded. -/
theorem set_files_skips_non_unicode_witness :
    set_files_impl ⟨false, false, false, 0⟩ [WPath.nonUnicode] = .ok () :=
  (set_files_skips_non_unicode ⟨false, false, false, 0⟩ rfl rfl rfl).2.1 [WPath.nonUnicode]
